import Mathlib

/-!
Verification development for the question_logger repository.

The Python source is shallowly embedded: Python dicts become association
lists over String keys, `collections.deque` insertion-order queues become
`List String`, `time.time()` becomes an explicit `now : Nat` argument,
spreadsheet grids are `List (List String)` in row-major order, and side
effects on external services are reified as explicit action values.
Caught exceptions are modelled with `Except`, where the error value carries
the state at the moment of the raise (the enclosing handler logs and keeps
that state).
-/

namespace QuestionLogger

/-- Python `str.strip()` on the character list of a string: drop whitespace
from both ends. -/
def stripChars (l : List Char) : List Char :=
  ((l.dropWhile Char.isWhitespace).reverse.dropWhile Char.isWhitespace).reverse

/-- Python `str.strip()`. -/
def pystrip (s : String) : String := String.mk (stripChars s.data)

/-- Association-list lookup; model of Python `dict.get` on a dict whose
keys are strings. -/
def alookup {α : Type} (k : String) : List (String × α) → Option α
  | [] => none
  | p :: rest => if p.1 = k then some p.2 else alookup k rest

/-- Association-list assignment; model of Python `d[k] = v`: an existing
binding is updated in place, a new key is appended at the end. -/
def ainsert {α : Type} (k : String) (v : α) : List (String × α) → List (String × α)
  | [] => [(k, v)]
  | p :: rest => if p.1 = k then (k, v) :: rest else p :: ainsert k v rest

/-- Association-list removal; model of Python `d.pop(k, None)`: removes the
binding for `k` when present. -/
def aerase {α : Type} (k : String) : List (String × α) → List (String × α)
  | [] => []
  | p :: rest => if p.1 = k then rest else p :: aerase k rest

/-- The value stored in `RelayMemory.map` for one client thread:
`(job, internal_channel, internal_ts, created_at)` from `app.py`. -/
structure RelayEntry where
  job : String
  ich : String
  its : String
  created : Nat
deriving DecidableEq, Repr

/-- Embedding of class `RelayMemory` (app.py lines 28-70): a keyed map from
client thread timestamp to `RelayEntry` plus an insertion-order deque. -/
structure RelayMemory where
  maxItems : Nat
  ttl : Nat
  map : List (String × RelayEntry)
  order : List String
deriving DecidableEq, Repr

/-- The TTL-eviction loop of `RelayMemory._evict`: pop keys from the front
of the order deque while the mapped entry is missing (popped silently) or
older than the TTL (popped and removed from the map); stop at the first
fresh front entry. -/
def evictTTL (now ttl : Nat) : List String → List (String × RelayEntry) →
    List String × List (String × RelayEntry)
  | [], m => ([], m)
  | k :: rest, m =>
    match alookup k m with
    | none => evictTTL now ttl rest m
    | some v =>
      if now - v.created > ttl then evictTTL now ttl rest (aerase k m)
      else (k :: rest, m)

/-- The size-eviction loop of `RelayMemory._evict`: while the order deque is
longer than `maxItems`, pop the front key and remove it from the map. -/
def evictSize (maxItems : Nat) : List String → List (String × RelayEntry) →
    List String × List (String × RelayEntry)
  | [], m => ([], m)
  | k :: rest, m =>
    if rest.length + 1 > maxItems then evictSize maxItems rest (aerase k m)
    else (k :: rest, m)

/-- Embedding of `RelayMemory._evict` (app.py lines 37-55): TTL eviction, then size
eviction. -/
def RelayMemory.evict (now : Nat) (s : RelayMemory) : RelayMemory :=
  let p1 := evictTTL now s.ttl s.order s.map
  let p2 := evictSize s.maxItems p1.1 p1.2
  { s with order := p2.1, map := p2.2 }

/-- Embedding of `RelayMemory.save_map` (app.py lines 57-62): bind the client timestamp
to the job and internal thread with creation time `now` (the `time.time()`
call), append the key to the order deque, then evict. -/
def RelayMemory.save_map (s : RelayMemory) (job ich its cts : String) (now : Nat) :
    RelayMemory :=
  RelayMemory.evict now
    { s with map := ainsert cts ⟨job, ich, its, now⟩ s.map, order := s.order ++ [cts] }

/-- Embedding of `RelayMemory.by_client_thread` (app.py lines 64-70): lookup only, no
mutation and no freshness check. -/
def RelayMemory.by_client_thread (s : RelayMemory) (cts : String) :
    Option (String × String × String) :=
  match alookup cts s.map with
  | none => none
  | some v => some (v.job, v.ich, v.its)

/-- Model of `RELAY_MEM = RelayMemory()` with the constructor defaults
`max_items=30`, `ttl_seconds=72*3600`. -/
def RelayMemory.empty : RelayMemory := ⟨30, 259200, [], []⟩

/-- Well-formedness that holds for every state the Python object can reach:
map keys are pairwise distinct (it is a dict) and every mapped key is
somewhere in the order deque (every insertion appends the key to the deque
and evictions remove map entries only together with deque entries). -/
def RelayMemory.WF (s : RelayMemory) : Prop :=
  (s.map.map Prod.fst).Nodup ∧ ∀ k v, alookup k s.map = some v → k ∈ s.order

/-- One attempt of `JOB_TAG_RE = re.compile(r"#(\d{5})\?")` at the head of
the text: a hash, exactly five digits, then a question mark; on success the
five digit characters are the capture group. -/
def headTag? : List Char → Option (List Char)
  | c0 :: d1 :: d2 :: d3 :: d4 :: d5 :: c6 :: _ =>
    if c0 = '#' ∧ d1.isDigit ∧ d2.isDigit ∧ d3.isDigit ∧ d4.isDigit ∧ d5.isDigit ∧ c6 = '?'
    then some [d1, d2, d3, d4, d5] else none
  | _ => none

/-- Model of `JOB_TAG_RE.search`: try the fixed-width pattern at each position from
the left; the first (leftmost) match wins. -/
def searchTag : List Char → Option (List Char)
  | [] => none
  | c :: rest =>
    match headTag? (c :: rest) with
    | some d => some d
    | none => searchTag rest

/-- Model of `m = JOB_TAG_RE.search(text)` followed by `m.group(1)`: the extracted
job number, if any. -/
def jobTag (s : String) : Option String :=
  (searchTag s.toList).map (fun l => String.mk l)

/-- The text contains an occurrence of hash, exactly five digits, question
mark (the language of `JOB_TAG_RE`). -/
def HasTag (s : List Char) : Prop :=
  ∃ pre d t, s = pre ++ '#' :: (d ++ '?' :: t) ∧ d.length = 5 ∧ ∀ c ∈ d, c.isDigit = true

/-- The row predicate shared by `_update_sheet_response_for_job` and
`_update_client_thread_info`: column A (stripped) equals the job number and
column G (stripped) is empty; absent trailing cells read as empty. -/
def isUnansweredFor (job : String) (row : List String) : Bool :=
  pystrip (row.getD 0 "") = job ∧ pystrip (row.getD 6 "") = ""

/-- The shared bottom-to-top scan `for idx in range(len(values) - 1, 0, -1)`
over a grid, returning the first (i.e. bottom-most) 0-based data-row index
whose row satisfies `isUnansweredFor`; index 0 (the header) is excluded.
Call with fuel `values.length` so the first index examined is
`values.length - 1`. -/
def findUnansweredRow (job : String) (values : List (List String)) : Nat → Option Nat
  | 0 => none
  | m + 1 =>
    if m = 0 then none
    else if isUnansweredFor job (values.getD m []) then some m
    else findUnansweredRow job values m

/-- The externally visible effect of `_update_sheet_response_for_job`:
either no write at all, an in-place `values.update` of the four cells
`G{row}:J{row}` (1-based row), or an `append_to_sheet` of one new row. -/
inductive RespAction where
  | noop : RespAction
  | updateGJ (row : Nat) (vals : List String) : RespAction
  | appendRow (vals : List String) : RespAction
deriving DecidableEq, Repr

/-- Embedding of `_update_sheet_response_for_job` (app.py lines 211-258),
with the `A:K` grid it reads passed in as `values`.  An empty grid returns
early; otherwise the bottom-most unanswered row for the job gets its G-J
cells overwritten, and if there is none a response-only row is appended. -/
def update_sheet_response_for_job (job resp_date resp_time resp_from resp_body : String)
    (values : List (List String)) : RespAction :=
  if values = [] then .noop
  else
    match findUnansweredRow job values values.length with
    | none =>
      .appendRow [job, "", "", "", "", "", resp_date, resp_time, resp_from, resp_body, ""]
    | some idx => .updateGJ (idx + 1) [resp_date, resp_time, resp_from, resp_body]

/-- The externally visible effect of `_update_client_thread_info`: no read
succeeded / empty grid, a logged warning with no write, or a
`values.update` whose range is `M{row}:O{row}` (columns 12-14, 0-based)
carrying the given value row. -/
inductive ClientInfoAction where
  | noop : ClientInfoAction
  | warnSkip : ClientInfoAction
  | updateMO (row : Nat) (vals : List String) : ClientInfoAction
deriving DecidableEq, Repr

/-- Embedding of `_update_client_thread_info` (app.py lines 260-288), with
the `A:O` grid it reads passed in as `values`.  Note the issued update
targets range `M{row}:O{row}` but supplies only the two values
`[client_ts, client_channel]`. -/
def update_client_thread_info (job client_ts client_channel : String)
    (values : List (List String)) : ClientInfoAction :=
  if values = [] then .noop
  else
    match findUnansweredRow job values values.length with
    | none => .warnSkip
    | some idx => .updateMO (idx + 1) [client_ts, client_channel]

/-- Pad a row with empty cells up to length `n` (a Sheets write materialises
any cells it touches). -/
def padTo (n : Nat) (row : List String) : List String :=
  row ++ List.replicate (n - row.length) ""

/-- Semantics of the Sheets `values.update` call for a single row: the
supplied values are anchored at the top-left of the range (column index
`start`, 0-based), and cells of the range for which no value is supplied
are left unmodified. -/
def writeCells (row : List String) (start : Nat) (vals : List String) : List String :=
  let row' := padTo (start + vals.length) row
  row'.take start ++ vals ++ row'.drop (start + vals.length)

/-- Apply the effect of a `ClientInfoAction` to the grid: an `updateMO`
writes its values into the targeted 1-based row anchored at column M
(0-based index 12). -/
def applyClientInfoAction (g : List (List String)) : ClientInfoAction → List (List String)
  | .updateMO r vals => g.enum.map (fun p => if p.1 + 1 = r then writeCells p.2 12 vals else p.2)
  | _ => g

/-- The header dict of `find_job_in_joblog`:
`idx = {h: i for i, h in enumerate(headers)}` - a later duplicate header
overwrites the index of an earlier one. -/
def buildIdx (headers : List String) : List (String × Nat) :=
  headers.enum.foldl (fun m p => ainsert p.2 p.1 m) []

/-- Python `a or b` on two optional column indices: both `None` and the
integer `0` are falsy, so an index of 0 in `a` falls through to `b`. -/
def pyOrIdx : Option Nat → Option Nat → Option Nat
  | some (n + 1), _ => some (n + 1)
  | _, b => b

/-- Model of `r[i].strip() if i is not None and i < len(r) else ""`. -/
def cellAt (r : List String) (i : Option Nat) : String :=
  match i with
  | some j => if j < r.length then pystrip (r.getD j "") else ""
  | none => ""

/-- The data-row loop of `find_job_in_joblog`: skip rows where the job
column index is `None` or out of range, return the first row whose job cell
(stripped) equals the queried job number. -/
def findMatchingRow (job_num : String) (jobIdx : Option Nat) :
    List (List String) → Option (List String)
  | [] => none
  | r :: rest =>
    match jobIdx with
    | none => findMatchingRow job_num none rest
    | some j =>
      if j < r.length then
        if pystrip (r.getD j "") = job_num then some r
        else findMatchingRow job_num (some j) rest
      else findMatchingRow job_num (some j) rest

/-- The dict returned by `find_job_in_joblog` on a match. -/
structure JobLogHit where
  job_num : String
  job_name : String
  monday_item_id : String
  wl_item_id : String
  raw_row : List String
  headers : List String
deriving DecidableEq, Repr

/-- Embedding of `find_job_in_joblog` (google_utils.py lines 97-122), with
the rows of the reference range passed in.  The first row is the header
row; the work-item id column is resolved by
`idx.get("Ewing Board Item ID") or idx.get("Monday ID")`. -/
def find_job_in_joblog (rows : List (List String)) (job_num : String) : Option JobLogHit :=
  match rows with
  | [] => none
  | hdr :: dataRows =>
    let headers := hdr.map pystrip
    let idx := buildIdx headers
    let jobIdx := alookup "Job #" idx
    let nameIdx := alookup "Job Name" idx
    let mondayIdx := pyOrIdx (alookup "Ewing Board Item ID" idx) (alookup "Monday ID" idx)
    let wlIdx := alookup "WLIII Item ID" idx
    (findMatchingRow job_num jobIdx dataRows).map (fun r =>
      { job_num := cellAt r jobIdx
        job_name := cellAt r nameIdx
        monday_item_id := cellAt r mondayIdx
        wl_item_id := cellAt r wlIdx
        raw_row := r
        headers := headers })

/-- The module-level bootstrap of google_utils.py (lines 10-13): when
`GOOGLE_CREDS_BASE64` is set to a non-empty value and `google_creds.json`
does not exist, the decoded blob is written; the write target is the
literal path `google_creds.json`.  Returns the path written to, if any. -/
def bootstrapWritePath (env : String → Option String) (fileExists : String → Bool) :
    Option String :=
  match env "GOOGLE_CREDS_BASE64" with
  | none => none
  | some b =>
    if b ≠ "" ∧ fileExists "google_creds.json" = false then some "google_creds.json"
    else none

/-- The path read by `get_google_creds` (google_utils.py lines 18-27):
`os.getenv("GOOGLE_CREDS_FILE", "google_creds.json")`. -/
def credsLoadPath (env : String → Option String) : String :=
  (env "GOOGLE_CREDS_FILE").getD "google_creds.json"

/-- A concrete environment: credential blob supplied, and the load path
overridden to `other.json`. -/
def envCx : String → Option String := fun k =>
  if k = "GOOGLE_CREDS_BASE64" then some "Zm9vYmFy"
  else if k = "GOOGLE_CREDS_FILE" then some "other.json"
  else none

/-- One request of the `documents().batchUpdate` body built by
`append_revision_divider`: either a text-style update over a half-open
index range (with the optional bold and italic values it sets, the optional
foreground RGB colour, and the `fields` mask) or a text insertion. -/
inductive DocRequest where
  | updateTextStyle (startIndex endIndex : Nat) (bold italic : Option Bool)
      (color : Option (ℚ × ℚ × ℚ)) (fields : String) : DocRequest
  | insertText (index : Nat) (text : List Char) : DocRequest
deriving DecidableEq, Repr

/-- The two-newline separator used between segments. -/
def nl2 : List Char := ['\n', '\n']

/-- Model of `divider_line = "=" * 72`. -/
def dividerLine : List Char := List.replicate 72 '='

/-- Model of the header text `REVISION #N - date` built with the literal
en dash of the source. -/
def headerText (revNum today : List Char) : List Char :=
  "REVISION #".toList ++ revNum ++ " – ".toList ++ today

/-- Model of `text_to_insert`: spacer, divider, header and triggering text, each
segment separated by a blank line. -/
def revisionInsertText (trig revNum today : List Char) : List Char :=
  nl2 ++ dividerLine ++ nl2 ++ headerText revNum today ++ nl2 ++ trig ++ nl2

/-- Embedding of `append_revision_divider` (google_utils.py lines 155-262).
`endIndex` is the insertion point computed from the fetched document
(`body_content[-1]["endIndex"] - 1`, or 1 for an empty body); `today` is
the `datetime.now().strftime("%m/%d/%Y")` string.  The result is the
ordered request list submitted as one `batchUpdate`. -/
def append_revision_divider (endIndex : Nat) (trig revNum today : List Char) :
    List DocRequest :=
  let divider_line := dividerLine
  let header_text := headerText revNum today
  let text_to_insert := revisionInsertText trig revNum today
  let divider_rel_start := 2
  let divider_rel_end := divider_rel_start + divider_line.length
  let header_rel_start := divider_rel_end + 2
  let header_rel_end := header_rel_start + header_text.length
  let msg_rel_start := header_rel_end + 2
  let msg_rel_end := msg_rel_start + trig.length
  (if endIndex > 1 then
    [DocRequest.updateTextStyle 1 endIndex none (some true)
      (some (1/2, 1/2, 1/2)) "italic,foregroundColor"]
   else []) ++
  [DocRequest.insertText endIndex text_to_insert,
   DocRequest.updateTextStyle (endIndex + divider_rel_start) (endIndex + divider_rel_end)
     (some true) none none "bold",
   DocRequest.updateTextStyle (endIndex + header_rel_start) (endIndex + header_rel_end)
     (some true) (some false) (some (0, 0, 0)) "bold,italic,foregroundColor",
   DocRequest.updateTextStyle (endIndex + msg_rel_start) (endIndex + msg_rel_end)
     none (some false) (some (0, 0, 0)) "italic,foregroundColor"]

/-- The outcome of the internal-channel branch of `message_router`
(app.py lines 307-351): the pending-internal cache after the event, and the
list of rows actually appended to the Question Log sheet. -/
structure InternalOutcome where
  pending : List (String × (String × String))
  sheetAppends : List (List String)
deriving DecidableEq, Repr

/-- Embedding of the internal-channel branch of `message_router`.  The
results of the fallible helper calls are parameters: `userName` from
`_get_user_name_safe` (which never raises), `jobName` and `mondayItemId`
from the caught Job Log lookup (blank on failure), and `appendSucceeds`
records whether `append_to_sheet` raised - the raise is caught and logged,
and execution continues to the `PENDING_INTERNAL[job_num] = (channel, ts)`
assignment either way. -/
def handle_internal_message (channel ts text userName jobName mondayItemId : String)
    (requestDate requestTime : String) (appendSucceeds : Bool)
    (pending : List (String × (String × String))) : InternalOutcome :=
  match jobTag text with
  | none => ⟨pending, []⟩
  | some jobNum =>
    let row := [jobNum, jobName, requestDate, requestTime, userName, text,
                "", "", "", "", mondayItemId, ts, "", channel, ""]
    let appends := if appendSucceeds then [row] else []
    ⟨ainsert jobNum (channel, ts) pending, appends⟩

/-- Model of `(r[0].strip() if len(r) > 0 else "")` in `rebuild_from_sheet_cache`. -/
def rowJob (r : List String) : String := pystrip (r.getD 0 "")

/-- Column L of a rebuilt row. -/
def rowInternalTs (r : List String) : String := pystrip (r.getD 11 "")

/-- Column M of a rebuilt row. -/
def rowClientTs (r : List String) : String := pystrip (r.getD 12 "")

/-- Column N of a rebuilt row. -/
def rowInternalCh (r : List String) : String := pystrip (r.getD 13 "")

/-- Model of `if job and internal_ts and internal_ch` (app.py line 168). -/
def pendQual (r : List String) : Bool :=
  rowJob r ≠ "" ∧ rowInternalTs r ≠ "" ∧ rowInternalCh r ≠ ""

/-- Model of `if job and client_ts and internal_ts and internal_ch` (line 171). -/
def relayQual (r : List String) : Bool :=
  rowJob r ≠ "" ∧ rowClientTs r ≠ "" ∧ rowInternalTs r ≠ "" ∧ rowInternalCh r ≠ ""

/-- The module globals of app.py that the startup rebuild touches.
`pendingInternal = none` models the name `PENDING_INTERNAL` not being bound
yet: the assignment on line 185 runs only after the rebuild call on line
180, so during the rebuild any use of the name raises `NameError`. -/
structure ModuleState where
  pendingInternal : Option (List (String × (String × String)))
  relay : RelayMemory
deriving DecidableEq, Repr

/-- One iteration of the row loop of `rebuild_from_sheet_cache` (app.py
lines 160-175).  A `.error` result is a raised `NameError` carrying the
state at the raise: the `PENDING_INTERNAL[job] = ...` assignment on line
169 needs the global to be bound.  The `RELAY_MEM.save_map` call cannot
raise (its own try/except aside, the method only touches bound state). -/
def rebuildRowStep (now : Nat) (st : ModuleState) (r : List String) :
    Except ModuleState ModuleState :=
  let afterPending : Except ModuleState ModuleState :=
    if pendQual r then
      match st.pendingInternal with
      | none => .error st
      | some pm =>
        let pm' := ainsert (rowJob r) (rowInternalCh r, rowInternalTs r) pm
        .ok { st with pendingInternal := some pm' }
    else .ok st
  match afterPending with
  | .error s => .error s
  | .ok st1 =>
    if relayQual r then
      let relay' := st1.relay.save_map (rowJob r) (rowInternalCh r) (rowInternalTs r)
        (rowClientTs r) now
      .ok { st1 with relay := relay' }
    else .ok st1

/-- The row loop over the window, propagating a raise. -/
def rebuildLoop (now : Nat) : ModuleState → List (List String) →
    Except ModuleState ModuleState
  | st, [] => .ok st
  | st, r :: rest =>
    match rebuildRowStep now st r with
    | .error s => .error s
    | .ok st' => rebuildLoop now st' rest

/-- Embedding of `rebuild_from_sheet_cache` (app.py lines 150-178), with
the fetched `QuestionsLog!A:O` grid passed in as `values`.  The whole body
sits in a try/except that logs and returns, so a raise inside the loop
leaves the module state as it was at the raise.  The final log line (line
176) also reads `PENDING_INTERNAL` and so also raises when the name is
unbound, but it runs after the loop and does not change state, so both
match arms return the carried state. -/
def rebuild_from_sheet_cache (values : List (List String)) (now : Nat)
    (st : ModuleState) : ModuleState :=
  if values = [] then st
  else
    let rows := values.drop 1
    let window := rows.drop (rows.length - 200)
    match rebuildLoop now st window with
    | .error s => s
    | .ok s => s

/-- The module initialisation order of app.py relevant to the caches:
line 72 binds `RELAY_MEM = RelayMemory()`; line 180 calls
`rebuild_from_sheet_cache` while `PENDING_INTERNAL` is still unbound;
line 185 then binds `PENDING_INTERNAL = {}`. -/
def module_init (values : List (List String)) (now : Nat) : ModuleState :=
  let st0 : ModuleState := { pendingInternal := none, relay := RelayMemory.empty }
  let st1 := rebuild_from_sheet_cache values now st0
  { st1 with pendingInternal := some [] }

/-- The Question Log header row (columns A-O). -/
def qlHeader : List String :=
  ["Job #", "Job name", "Request DATE", "Request TIME", "Requested by", "Request BODY",
   "Response DATE", "Response TIME", "Response FROM", "Response BODY", "Monday Item ID",
   "Internal TS", "Client Root TS", "Internal Channel ID", "Client Channel ID"]

/-- A persisted, unanswered Question Log row for job 12345 with internal
thread data in L and N and an internal channel id already in column N. -/
def qlUnansweredRow : List String :=
  ["12345", "", "", "", "", "", "", "", "", "", "", "1700.5", "", "C08HUKW7NDU", ""]

/-- A fully relayed Question Log row for job 12345: internal thread in L/N
and client thread in M. -/
def qlRelayedRow : List String :=
  ["12345", "", "", "", "", "", "", "", "", "", "", "1700.5", "333.444", "C08HUKW7NDU", ""]

/-! ## General lemmas about the association-list model -/

theorem alookup_ainsert {α : Type} (k k' : String) (v : α) (m : List (String × α)) :
    alookup k' (ainsert k v m) = if k = k' then some v else alookup k' m := by
  induction m with
  | nil => simp [ainsert, alookup]
  | cons p rest ih =>
    by_cases h1 : p.1 = k
    · subst h1
      by_cases h2 : p.1 = k' <;> simp [ainsert, alookup, h2]
    · by_cases h2 : p.1 = k'
      · have h3 : ¬ k = k' := fun h => h1 (by rw [h]; exact h2)
        have h4 : ¬ k' = k := fun h => h3 h.symm
        simp [ainsert, alookup, h1, h2, h3, h4]
      · simp [ainsert, alookup, h1, h2, ih]

theorem alookup_ainsert_self {α : Type} (k : String) (v : α) (m : List (String × α)) :
    alookup k (ainsert k v m) = some v := by
  simp [alookup_ainsert]

/-! ## C9 -/

/-- C9: `by_client_thread` does not enforce the TTL: an entry present in
the map is returned as its `(job, internal channel, internal timestamp)`
triple even when its age at lookup time exceeds the TTL; the lookup is pure
and expired entries are only removed by the eviction run inside a
subsequent save. -/
theorem c9_lookup_ignores_ttl (s : RelayMemory) (cts job ich its : String)
    (created now : Nat) (h : alookup cts s.map = some ⟨job, ich, its, created⟩)
    (hexp : now - created > s.ttl) :
    s.by_client_thread cts = some (job, ich, its) := by
  simp [RelayMemory.by_client_thread, h]

/-- Witness for C9: a cache holding one entry created at time 0 with the
default 259200-second TTL still answers the lookup at time 300000. -/
theorem c9_lookup_ignores_ttl_witness :
    (alookup "55.1" (RelayMemory.mk 30 259200 [("55.1", ⟨"12345", "C1", "9.9", 0⟩)] ["55.1"]).map
        = some ⟨"12345", "C1", "9.9", 0⟩) ∧
    300000 - 0 > (RelayMemory.mk 30 259200 [("55.1", ⟨"12345", "C1", "9.9", 0⟩)] ["55.1"]).ttl ∧
    (RelayMemory.mk 30 259200 [("55.1", ⟨"12345", "C1", "9.9", 0⟩)] ["55.1"]).by_client_thread "55.1"
      = some ("12345", "C1", "9.9") :=
  ⟨by decide, by decide,
    c9_lookup_ignores_ttl _ "55.1" "12345" "C1" "9.9" 0 300000 (by decide) (by decide)⟩

/-! ## C3 -/

/-- Counterexample for C3 as stated: with `GOOGLE_CREDS_FILE` set to
`other.json`, the bootstrap still writes to the literal path
`google_creds.json` while credential loading reads `other.json` - the file
written is not the file read. -/
theorem c3_bootstrap_path_counterexample :
    bootstrapWritePath envCx (fun _ => false) = some "google_creds.json" ∧
    credsLoadPath envCx = "other.json" ∧
    bootstrapWritePath envCx (fun _ => false) ≠ some (credsLoadPath envCx) := by
  refine ⟨by decide, by decide, by decide⟩

/-- C3 amended: the bootstrap write path never depends on
`GOOGLE_CREDS_FILE` and is always the literal `google_creds.json`, while
the load path is `GOOGLE_CREDS_FILE` with default `google_creds.json`; the
two agree exactly when `GOOGLE_CREDS_FILE` is unset or set to
`google_creds.json`. -/
theorem c3_bootstrap_paths :
    (∀ (env env' : String → Option String) (fe : String → Bool),
      (∀ k, k ≠ "GOOGLE_CREDS_FILE" → env k = env' k) →
      bootstrapWritePath env fe = bootstrapWritePath env' fe) ∧
    (∀ (env : String → Option String) (fe : String → Bool) (p : String),
      bootstrapWritePath env fe = some p → p = "google_creds.json") ∧
    (∀ env : String → Option String, credsLoadPath env = "google_creds.json" ↔
      (env "GOOGLE_CREDS_FILE" = none ∨ env "GOOGLE_CREDS_FILE" = some "google_creds.json")) := by
  refine ⟨?_, ?_, ?_⟩
  · intro env env' fe h
    unfold bootstrapWritePath
    rw [h "GOOGLE_CREDS_BASE64" (by decide)]
  · intro env fe p h
    unfold bootstrapWritePath at h
    split at h
    · exact absurd h (by simp)
    · split at h
      · injection h with h'
        exact h'.symm
      · exact absurd h (by simp)
  · intro env
    unfold credsLoadPath
    cases henv : env "GOOGLE_CREDS_FILE" with
    | none => simp
    | some s => simp

/-- Witness for C3: instantiating the invariance conjunct at two concrete
environments that differ only at `GOOGLE_CREDS_FILE`. -/
theorem c3_bootstrap_paths_witness :
    bootstrapWritePath envCx (fun _ => false) =
      bootstrapWritePath
        (fun k => if k = "GOOGLE_CREDS_BASE64" then some "Zm9vYmFy" else none)
        (fun _ => false) :=
  c3_bootstrap_paths.1 envCx
    (fun k => if k = "GOOGLE_CREDS_BASE64" then some "Zm9vYmFy" else none)
    (fun _ => false)
    (by
      intro k hk
      unfold envCx
      by_cases h1 : k = "GOOGLE_CREDS_BASE64" <;> simp [h1, hk])

/-! ## C2 -/

/-- C2 is a code bug: `_update_client_thread_info` finds the bottom-most
unanswered row correctly, but then issues a `values.update` on range
`M{row}:O{row}` carrying only the two values `[client_ts, client_channel]`.
The Sheets API anchors the values at column M, so the client channel id
lands in column N (Internal Channel ID, overwriting it) and column O
(Client Channel ID) is left untouched, contrary to the code comment
"Write M (Client Root TS) and O (Client Channel ID)" and to the claim. -/
theorem c2_client_info_write_hits_column_n :
    update_client_thread_info "12345" "111.222" "CCLIENT" [qlHeader, qlUnansweredRow]
      = .updateMO 2 ["111.222", "CCLIENT"] ∧
    (qlUnansweredRow.getD 13 "" = "C08HUKW7NDU") ∧
    (((applyClientInfoAction [qlHeader, qlUnansweredRow]
        (update_client_thread_info "12345" "111.222" "CCLIENT"
          [qlHeader, qlUnansweredRow])).getD 1 []).getD 12 "" = "111.222") ∧
    (((applyClientInfoAction [qlHeader, qlUnansweredRow]
        (update_client_thread_info "12345" "111.222" "CCLIENT"
          [qlHeader, qlUnansweredRow])).getD 1 []).getD 13 "" = "CCLIENT") ∧
    (((applyClientInfoAction [qlHeader, qlUnansweredRow]
        (update_client_thread_info "12345" "111.222" "CCLIENT"
          [qlHeader, qlUnansweredRow])).getD 1 []).getD 14 "" = "") := by
  refine ⟨by decide, by decide, by decide, by decide, by decide⟩

/-! ## C4 -/

/-- C4 is a code bug: the work-item id column is resolved with the Python
expression `idx.get("Ewing Board Item ID") or idx.get("Monday ID")`, and
the integer index 0 is falsy in Python.  When the `Ewing Board Item ID`
header is in the first column, its index 0 falls through to the
`Monday ID` column (first conjunct) or to no column at all (second
conjunct), so the claimed tolerance of the column appearing at any
position, including the first, fails; with the Ewing column at any other
position the lookup behaves as claimed (third conjunct). -/
theorem c4_joblog_first_column_lookup :
    ((find_job_in_joblog
        [["Ewing Board Item ID", "Job #", "Job Name", "Monday ID"],
         ["EW1", "12345", "Acme", "MON1"]] "12345").map
      (fun h => h.monday_item_id) = some "MON1") ∧
    ((find_job_in_joblog
        [["Ewing Board Item ID", "Job #", "Job Name"],
         ["EW1", "12345", "Acme"]] "12345").map
      (fun h => h.monday_item_id) = some "") ∧
    ((find_job_in_joblog
        [["Job #", "Ewing Board Item ID", "Job Name", "Monday ID"],
         ["12345", "EW1", "Acme", "MON1"]] "12345").map
      (fun h => h.monday_item_id) = some "EW1") ∧
    ("MON1" ≠ "EW1") := by
  refine ⟨by decide, by decide, by decide, by decide⟩

/-! ## C1 -/

theorem relayQual_pendQual {r : List String} (h : relayQual r = true) :
    pendQual r = true := by
  simp only [relayQual, decide_eq_true_eq] at h
  simp only [pendQual, decide_eq_true_eq]
  exact ⟨h.1, h.2.2⟩

/-- While `PENDING_INTERNAL` is unbound, the rebuild loop either finishes
without having changed anything (no qualifying row) or raises at the first
qualifying row with the state unchanged. -/
theorem rebuildLoop_unbound (now : Nat) :
    ∀ (w : List (List String)) (st : ModuleState), st.pendingInternal = none →
      rebuildLoop now st w = .ok st ∨ rebuildLoop now st w = .error st := by
  intro w
  induction w with
  | nil => intro st _; left; rfl
  | cons r rest ih =>
    intro st h
    by_cases hq : pendQual r = true
    · right
      simp [rebuildLoop, rebuildRowStep, hq, h]
    · have hq' : pendQual r = false := by simpa using hq
      have hrq : relayQual r = false := by
        cases hrel : relayQual r
        · rfl
        · exact absurd (relayQual_pendQual hrel) (by simp [hq'])
      simp only [rebuildLoop, rebuildRowStep, hq', hrq, Bool.false_eq_true, if_false]
      exact ih st h

/-- While `PENDING_INTERNAL` is unbound, `rebuild_from_sheet_cache` leaves
the module state untouched: the raised `NameError` is swallowed by the
surrounding try/except. -/
theorem rebuild_unbound (values : List (List String)) (now : Nat) (st : ModuleState)
    (h : st.pendingInternal = none) : rebuild_from_sheet_cache values now st = st := by
  unfold rebuild_from_sheet_cache
  split
  · rfl
  · rcases rebuildLoop_unbound now ((values.drop 1).drop ((values.drop 1).length - 200)) st h
      with h' | h' <;> (dsimp only; rw [h'])

/-- C1 is a code bug: `rebuild_from_sheet_cache` is called on line 180 of
app.py, but the global `PENDING_INTERNAL` it assigns to (line 169) and
reads (line 176) is only bound on line 185, after the call.  The resulting
`NameError` is raised at the first row having a job number, internal
timestamp and internal channel (a row qualifying for the relay cache also
qualifies for the pending cache, and the pending assignment comes first),
or else at the final log line, and is swallowed by the blanket except.  So
after startup both caches are always empty, regardless of the sheet
contents - first conjunct; the remaining conjuncts evaluate startup on a
sheet holding one fully qualifying row and show neither cache contains the
entries the claim requires. -/
theorem c1_startup_rebuild_is_noop :
    (∀ values now, (module_init values now).pendingInternal = some [] ∧
       (module_init values now).relay = RelayMemory.empty) ∧
    (pendQual qlRelayedRow = true ∧ relayQual qlRelayedRow = true) ∧
    alookup "12345" ((module_init [qlHeader, qlRelayedRow] 1000).pendingInternal.getD [])
      = none ∧
    (module_init [qlHeader, qlRelayedRow] 1000).relay.by_client_thread "333.444" = none := by
  refine ⟨?_, ⟨by decide, by decide⟩, by decide, by decide⟩
  intro values now
  have h := rebuild_unbound values now ⟨none, RelayMemory.empty⟩ rfl
  simp [module_init, h]

/-! ## C10 -/

/-- C10: in the internal-channel branch of `message_router`, a failure of
the Question Log append is caught, and the `PENDING_INTERNAL` entry for the
extracted job number is overwritten with the channel and
timestamp no matter whether the append succeeded; with a failed append the
sheet gains no row while the cache is still updated, so the two can
disagree. -/
theorem c10_cache_write_unconditional (channel ts text userName jobName mondayItemId
    requestDate requestTime : String) (pending : List (String × (String × String)))
    (jobNum : String) (h : jobTag text = some jobNum) :
    (∀ ok : Bool, alookup jobNum
        (handle_internal_message channel ts text userName jobName mondayItemId
          requestDate requestTime ok pending).pending = some (channel, ts)) ∧
    (handle_internal_message channel ts text userName jobName mondayItemId
        requestDate requestTime false pending).sheetAppends = [] ∧
    (handle_internal_message channel ts text userName jobName mondayItemId
        requestDate requestTime true pending).sheetAppends =
      [[jobNum, jobName, requestDate, requestTime, userName, text,
        "", "", "", "", mondayItemId, ts, "", channel, ""]] := by
  refine ⟨?_, ?_, ?_⟩
  · intro ok
    simp [handle_internal_message, h, alookup_ainsert_self]
  · simp [handle_internal_message, h]
  · simp [handle_internal_message, h]

/-- Witness for C10: a concrete internal message carrying the tag
`#12345?`. -/
theorem c10_cache_write_unconditional_witness :
    jobTag "Please check #12345? thanks" = some "12345" ∧
    (∀ ok : Bool, alookup "12345"
        (handle_internal_message "C08HUKW7NDU" "1700.5" "Please check #12345? thanks"
          "Pat" "Acme" "M1" "2026-10-12" "08:00:00" ok []).pending
      = some ("C08HUKW7NDU", "1700.5")) ∧
    (handle_internal_message "C08HUKW7NDU" "1700.5" "Please check #12345? thanks"
        "Pat" "Acme" "M1" "2026-10-12" "08:00:00" false []).sheetAppends = [] :=
  ⟨by decide,
   (c10_cache_write_unconditional "C08HUKW7NDU" "1700.5" "Please check #12345? thanks"
      "Pat" "Acme" "M1" "2026-10-12" "08:00:00" [] "12345" (by decide)).1,
   (c10_cache_write_unconditional "C08HUKW7NDU" "1700.5" "Please check #12345? thanks"
      "Pat" "Acme" "M1" "2026-10-12" "08:00:00" [] "12345" (by decide)).2.1⟩

/-! ## C5 -/

theorem findUnansweredRow_eq_none (job : String) (values : List (List String)) :
    ∀ n, findUnansweredRow job values n = none ↔
      ∀ j, 1 ≤ j → j < n → isUnansweredFor job (values.getD j []) = false := by
  intro n
  induction n with
  | zero => simp [findUnansweredRow]
  | succ m ih =>
    by_cases hm : m = 0
    · subst hm
      simp [findUnansweredRow]
      omega
    · cases hP : isUnansweredFor job (values.getD m [])
      · simp only [findUnansweredRow, hm, if_false, hP, Bool.false_eq_true, ih]
        constructor
        · intro hall j h1 h2
          by_cases hjm : j = m
          · subst hjm; exact hP
          · exact hall j h1 (by omega)
        · intro hall j h1 h2
          exact hall j h1 (by omega)
      · simp only [findUnansweredRow, hm, if_false, hP, if_true]
        constructor
        · intro hcontra; exact absurd hcontra (by simp)
        · intro hall
          have := hall m (by omega) (by omega)
          rw [hP] at this
          exact absurd this (by simp)

theorem findUnansweredRow_eq_some (job : String) (values : List (List String)) :
    ∀ n i, findUnansweredRow job values n = some i →
      1 ≤ i ∧ i < n ∧ isUnansweredFor job (values.getD i []) = true ∧
        ∀ j, i < j → j < n → isUnansweredFor job (values.getD j []) = false := by
  intro n
  induction n with
  | zero => intro i h; exact absurd h (by simp [findUnansweredRow])
  | succ m ih =>
    intro i h
    by_cases hm : m = 0
    · subst hm; exact absurd h (by simp [findUnansweredRow])
    · cases hP : isUnansweredFor job (values.getD m []) with
      | true =>
        simp only [findUnansweredRow, hm, if_false, hP, if_true, Option.some.injEq] at h
        subst h
        exact ⟨by omega, by omega, hP, fun j h1 h2 => by omega⟩
      | false =>
        simp only [findUnansweredRow, hm, if_false, hP, Bool.false_eq_true] at h
        obtain ⟨g1, g2, g3, g4⟩ := ih i h
        refine ⟨g1, by omega, g3, fun j h1 h2 => ?_⟩
        by_cases hjm : j = m
        · subst hjm; exact hP
        · exact g4 j h1 (by omega)

/-- Counterexample for C5 as stated: when the `A:K` read returns an empty
grid there is (vacuously) no unanswered row for the job, yet the operation
performs no write at all instead of the claimed fallback append - the
response is dropped. -/
theorem c5_empty_grid_counterexample :
    update_sheet_response_for_job "12345" "2026-10-12" "08:00:00" "Pat" "Yes" [] =
      RespAction.noop ∧
    RespAction.noop ≠ RespAction.appendRow
      ["12345", "", "", "", "", "", "2026-10-12", "08:00:00", "Pat", "Yes", ""] := by
  exact ⟨rfl, by decide⟩

/-- C5 amended: provided the Question Log read returns a non-empty grid
(at least the header row), the operation scans bottom-to-top excluding the
header; if some data row has column A equal to the job and column G empty,
the bottom-most such row (1-based index `i + 1`) gets exactly its columns
G-J overwritten with the four response values; otherwise a new row is
appended carrying the job number in column A, the four response values in
columns G-J, and blanks in B-F and K.  (On an empty grid the operation
returns without any write.) -/
theorem c5_response_update (job d t f b : String) (values : List (List String))
    (hne : values ≠ []) :
    (∃ i, 1 ≤ i ∧ i < values.length ∧ isUnansweredFor job (values.getD i []) = true ∧
       (∀ j, i < j → j < values.length → isUnansweredFor job (values.getD j []) = false) ∧
       update_sheet_response_for_job job d t f b values = .updateGJ (i + 1) [d, t, f, b]) ∨
    ((∀ j, 1 ≤ j → j < values.length → isUnansweredFor job (values.getD j []) = false) ∧
       update_sheet_response_for_job job d t f b values =
         .appendRow [job, "", "", "", "", "", d, t, f, b, ""]) := by
  unfold update_sheet_response_for_job
  rw [if_neg hne]
  cases hfind : findUnansweredRow job values values.length with
  | none =>
    right
    exact ⟨(findUnansweredRow_eq_none job values values.length).1 hfind, rfl⟩
  | some i =>
    left
    obtain ⟨g1, g2, g3, g4⟩ := findUnansweredRow_eq_some job values values.length i hfind
    exact ⟨i, g1, g2, g3, g4, rfl⟩

/-- Witness for C5: a grid with a header and one unanswered row for job
77777 makes the scan hit row index 1 and produce the G-J update of 1-based
row 2. -/
theorem c5_response_update_witness :
    ([["Job #"], ["77777", "", "", "", "", "", ""]] : List (List String)) ≠ [] ∧
    ((∃ i, 1 ≤ i ∧ i < (2 : Nat) ∧
        isUnansweredFor "77777" ([["Job #"], ["77777", "", "", "", "", "", ""]].getD i []) = true ∧
        (∀ j, i < j → j < (2 : Nat) →
          isUnansweredFor "77777" ([["Job #"], ["77777", "", "", "", "", "", ""]].getD j []) = false) ∧
        update_sheet_response_for_job "77777" "2026-10-12" "08:00:00" "Pat" "Yes"
          [["Job #"], ["77777", "", "", "", "", "", ""]] = .updateGJ (i + 1)
            ["2026-10-12", "08:00:00", "Pat", "Yes"]) ∨
     ((∀ j, 1 ≤ j → j < (2 : Nat) →
        isUnansweredFor "77777" ([["Job #"], ["77777", "", "", "", "", "", ""]].getD j []) = false) ∧
      update_sheet_response_for_job "77777" "2026-10-12" "08:00:00" "Pat" "Yes"
        [["Job #"], ["77777", "", "", "", "", "", ""]] =
          .appendRow ["77777", "", "", "", "", "", "2026-10-12", "08:00:00", "Pat", "Yes", ""])) :=
  ⟨by decide,
   c5_response_update "77777" "2026-10-12" "08:00:00" "Pat" "Yes"
     [["Job #"], ["77777", "", "", "", "", "", ""]] (by decide)⟩

/-! ## C7 -/

theorem mem_keys_exists {α : Type} {x : String} {m : List (String × α)}
    (h : x ∈ m.map Prod.fst) : ∃ v, alookup x m = some v := by
  induction m with
  | nil => simp at h
  | cons p rest ih =>
    by_cases hp : p.1 = x
    · exact ⟨p.2, by simp [alookup, hp]⟩
    · simp only [List.map_cons, List.mem_cons] at h
      rcases h with h | h
      · exact absurd h.symm hp
      · obtain ⟨v, hv⟩ := ih h
        exact ⟨v, by simp [alookup, hp, hv]⟩

theorem alookup_eq_none_of_not_mem {α : Type} {x : String} {m : List (String × α)}
    (h : x ∉ m.map Prod.fst) : alookup x m = none := by
  induction m with
  | nil => rfl
  | cons p rest ih =>
    simp only [List.map_cons, List.mem_cons] at h
    push_neg at h
    have hne : ¬ p.1 = x := fun hh => h.1 hh.symm
    simp [alookup, hne, ih h.2]

theorem mem_keys_ainsert {α : Type} {x k : String} {v : α} {m : List (String × α)} :
    x ∈ (ainsert k v m).map Prod.fst ↔ x = k ∨ x ∈ m.map Prod.fst := by
  induction m with
  | nil => simp [ainsert]
  | cons p rest ih =>
    by_cases hp : p.1 = k
    · simp only [ainsert]
      rw [if_pos hp]
      simp only [List.map_cons, List.mem_cons, hp]
      tauto
    · simp only [ainsert]
      rw [if_neg hp]
      simp only [List.map_cons, List.mem_cons, ih]
      tauto

theorem ainsert_keys_nodup {α : Type} {k : String} {v : α} {m : List (String × α)}
    (h : (m.map Prod.fst).Nodup) : ((ainsert k v m).map Prod.fst).Nodup := by
  induction m with
  | nil => simp [ainsert]
  | cons p rest ih =>
    simp only [List.map_cons, List.nodup_cons] at h
    by_cases hp : p.1 = k
    · subst hp
      simpa [ainsert, List.nodup_cons] using h
    · simp only [ainsert, if_neg hp, List.map_cons, List.nodup_cons]
      refine ⟨?_, ih h.2⟩
      rw [mem_keys_ainsert]
      rintro (h1 | h1)
      · exact hp h1
      · exact h.1 h1

theorem aerase_keys_sublist {α : Type} (k : String) (m : List (String × α)) :
    List.Sublist ((aerase k m).map Prod.fst) (m.map Prod.fst) := by
  induction m with
  | nil => simp [aerase]
  | cons p rest ih =>
    by_cases hp : p.1 = k
    · simpa [aerase, hp] using List.sublist_cons_self p.1 (rest.map Prod.fst)
    · simpa [aerase, hp] using List.Sublist.cons₂ p.1 ih

theorem aerase_keys_nodup {α : Type} {k : String} {m : List (String × α)}
    (h : (m.map Prod.fst).Nodup) : ((aerase k m).map Prod.fst).Nodup :=
  h.sublist (aerase_keys_sublist k m)

theorem alookup_aerase {α : Type} (k k' : String) (m : List (String × α))
    (h : (m.map Prod.fst).Nodup) :
    alookup k' (aerase k m) = if k' = k then none else alookup k' m := by
  induction m with
  | nil => simp [aerase, alookup]
  | cons p rest ih =>
    simp only [List.map_cons, List.nodup_cons] at h
    by_cases hp : p.1 = k
    · subst hp
      by_cases hk' : k' = p.1
      · subst hk'
        simp [aerase, alookup, alookup_eq_none_of_not_mem h.1]
      · have : ¬ p.1 = k' := fun hh => hk' hh.symm
        simp [aerase, alookup, hk', this]
    · by_cases hpk' : p.1 = k'
      · subst hpk'
        simp [aerase, alookup, hp]
      · simp [aerase, alookup, hp, hpk', ih h.2]

theorem evictTTL_wf (now ttl : Nat) :
    ∀ (order : List String) (m : List (String × RelayEntry)),
      (m.map Prod.fst).Nodup → (∀ k v, alookup k m = some v → k ∈ order) →
      (((evictTTL now ttl order m).2.map Prod.fst).Nodup ∧
       ∀ k v, alookup k (evictTTL now ttl order m).2 = some v →
         k ∈ (evictTTL now ttl order m).1) := by
  intro order
  induction order with
  | nil => intro m h1 h2; exact ⟨h1, h2⟩
  | cons k0 rest ih =>
    intro m h1 h2
    cases hk0 : alookup k0 m with
    | none =>
      have h2' : ∀ k v, alookup k m = some v → k ∈ rest := by
        intro k v hkv
        rcases List.mem_cons.1 (h2 k v hkv) with heq | hmem
        · rw [heq] at hkv; rw [hkv] at hk0; exact absurd hk0 (by simp)
        · exact hmem
      simpa only [evictTTL, hk0] using ih m h1 h2'
    | some v =>
      by_cases hexp : now - v.created > ttl
      · have h2' : ∀ k w, alookup k (aerase k0 m) = some w → k ∈ rest := by
          intro k w hkw
          rw [alookup_aerase k0 k m h1] at hkw
          by_cases hkk : k = k0
          · rw [if_pos hkk] at hkw; exact absurd hkw (by simp)
          · rw [if_neg hkk] at hkw
            rcases List.mem_cons.1 (h2 k w hkw) with heq | hmem
            · exact absurd heq hkk
            · exact hmem
        simpa only [evictTTL, hk0, if_pos hexp] using
          ih (aerase k0 m) (aerase_keys_nodup h1) h2'
      · simpa only [evictTTL, hk0, if_neg hexp] using ⟨h1, h2⟩

theorem evictSize_wf (maxItems : Nat) :
    ∀ (order : List String) (m : List (String × RelayEntry)),
      (m.map Prod.fst).Nodup → (∀ k v, alookup k m = some v → k ∈ order) →
      (((evictSize maxItems order m).2.map Prod.fst).Nodup ∧
       (∀ k v, alookup k (evictSize maxItems order m).2 = some v →
         k ∈ (evictSize maxItems order m).1) ∧
       (evictSize maxItems order m).1.length ≤ maxItems) := by
  intro order
  induction order with
  | nil => intro m h1 h2; exact ⟨h1, h2, by simp [evictSize]⟩
  | cons k0 rest ih =>
    intro m h1 h2
    by_cases hlen : rest.length + 1 > maxItems
    · have h2' : ∀ k w, alookup k (aerase k0 m) = some w → k ∈ rest := by
        intro k w hkw
        rw [alookup_aerase k0 k m h1] at hkw
        by_cases hkk : k = k0
        · rw [if_pos hkk] at hkw; exact absurd hkw (by simp)
        · rw [if_neg hkk] at hkw
          rcases List.mem_cons.1 (h2 k w hkw) with heq | hmem
          · exact absurd heq hkk
          · exact hmem
      simpa only [evictSize, if_pos hlen] using
        ih (aerase k0 m) (aerase_keys_nodup h1) h2'
    · refine ⟨?_, ?_, ?_⟩ <;> simp only [evictSize, if_neg hlen]
      · exact h1
      · exact h2
      · simpa using Nat.le_of_not_lt hlen

/-- Every save from a well-formed state preserves well-formedness and
leaves at most `maxItems` entries in the map. -/
theorem save_map_wf (s : RelayMemory) (job ich its cts : String) (now : Nat)
    (h : s.WF) : (s.save_map job ich its cts now).WF ∧
      (s.save_map job ich its cts now).map.length ≤ s.maxItems := by
  have h1' : ((ainsert cts ⟨job, ich, its, now⟩ s.map).map Prod.fst).Nodup :=
    ainsert_keys_nodup h.1
  have h2' : ∀ k v, alookup k (ainsert cts ⟨job, ich, its, now⟩ s.map) = some v →
      k ∈ s.order ++ [cts] := by
    intro k v hkv
    rw [alookup_ainsert] at hkv
    by_cases hk : cts = k
    · exact List.mem_append.2 (Or.inr (by simp [hk]))
    · rw [if_neg hk] at hkv
      exact List.mem_append.2 (Or.inl (h.2 k v hkv))
  have ttlWF := evictTTL_wf now s.ttl (s.order ++ [cts])
    (ainsert cts ⟨job, ich, its, now⟩ s.map) h1' h2'
  have sizeWF := evictSize_wf s.maxItems _ _ ttlWF.1 ttlWF.2
  constructor
  · exact ⟨sizeWF.1, sizeWF.2.1⟩
  · have hsub : ((s.save_map job ich its cts now).map.map Prod.fst) ⊆
        (s.save_map job ich its cts now).order := by
      intro x hx
      obtain ⟨v, hv⟩ := mem_keys_exists hx
      exact sizeWF.2.1 x v hv
    have hnd : ((s.save_map job ich its cts now).map.map Prod.fst).Nodup := sizeWF.1
    have hlen1 : ((s.save_map job ich its cts now).map.map Prod.fst).length ≤
        (s.save_map job ich its cts now).order.length :=
      (hnd.subperm hsub).length_le
    have hlen2 : (s.save_map job ich its cts now).order.length ≤ s.maxItems :=
      sizeWF.2.2
    calc (s.save_map job ich its cts now).map.length
        = ((s.save_map job ich its cts now).map.map Prod.fst).length := by
          rw [List.length_map]
      _ ≤ (s.save_map job ich its cts now).order.length := hlen1
      _ ≤ s.maxItems := hlen2

/-- Counterexample for C7 as stated: TTL eviction only inspects the front
of the insertion-order deque.  Re-saving key `a` refreshes its value while
its original front position remains, so after the save at time 259300 the
front is fresh and eviction stops there, leaving the entry for `b`
(created at time 0, age 259300 > 259200) in the map. -/
theorem c7_ttl_survivor_counterexample :
    alookup "b"
      ((((RelayMemory.empty.save_map "J" "C" "T" "a" 0).save_map "J" "C" "T" "b" 0).save_map
          "J" "C" "T" "a" 200).save_map "J" "C" "T" "z" 259300).map
      = some ⟨"J", "C", "T", 0⟩ ∧
    259300 - 0 > RelayMemory.empty.ttl := by
  exact ⟨by decide, by decide⟩

/-- C7 amended: after every save on a well-formed cache the map holds at
most `maxItems` (30) entries and well-formedness is preserved; eviction
removes entries from the front of insertion order, TTL eviction before
capacity eviction, and only a front-contiguous expired prefix is removed by
the TTL pass, so an expired entry behind a non-expired front entry (such as
a re-saved key whose old front position survives) can remain; re-saving an
existing key appends a duplicate at the back without moving the original
position.  Inserting 31 distinct mappings into an empty cache leaves
exactly 30 entries with precisely the single oldest-inserted key evicted
and the insertion order of the rest preserved. -/
theorem c7_relay_eviction :
    (∀ (s : RelayMemory) (job ich its cts : String) (now : Nat), s.WF →
      (s.save_map job ich its cts now).WF ∧
      (s.save_map job ich its cts now).map.length ≤ s.maxItems) ∧
    ((List.range 31).foldl (fun s i => s.save_map "J" "C" "T" ("k" ++ toString i) 0)
        RelayMemory.empty).map.length = 30 ∧
    alookup "k0" ((List.range 31).foldl
        (fun s i => s.save_map "J" "C" "T" ("k" ++ toString i) 0)
        RelayMemory.empty).map = none ∧
    alookup "k30" ((List.range 31).foldl
        (fun s i => s.save_map "J" "C" "T" ("k" ++ toString i) 0)
        RelayMemory.empty).map = some ⟨"J", "C", "T", 0⟩ ∧
    ((List.range 31).foldl (fun s i => s.save_map "J" "C" "T" ("k" ++ toString i) 0)
        RelayMemory.empty).order
      = (List.range 30).map (fun i => "k" ++ toString (i + 1)) := by
  refine ⟨fun s job ich its cts now h => save_map_wf s job ich its cts now h,
    by decide, by decide, by decide, by decide⟩

/-- Witness for C7: the empty cache is well-formed, and one save from it
satisfies the proved bound. -/
theorem c7_relay_eviction_witness :
    RelayMemory.empty.WF ∧
    (RelayMemory.empty.save_map "J" "C" "T" "55.5" 7).WF ∧
    (RelayMemory.empty.save_map "J" "C" "T" "55.5" 7).map.length ≤
      RelayMemory.empty.maxItems :=
  have hwf : RelayMemory.empty.WF :=
    ⟨by simp [RelayMemory.empty], fun k v h => by simp [RelayMemory.empty, alookup] at h⟩
  ⟨hwf, (c7_relay_eviction.1 RelayMemory.empty "J" "C" "T" "55.5" 7 hwf).1,
    (c7_relay_eviction.1 RelayMemory.empty "J" "C" "T" "55.5" 7 hwf).2⟩

/-! ## C8 -/

/-- C8: on a document with existing content (`endIndex > 1`),
`append_revision_divider` issues one ordered batch of exactly five
requests: the grey-italic restyle of `[1, endIndex)`, the insertion at
`endIndex` of the five-segment block (spacer, 72-equals divider, header,
triggering text, each segment separated by a blank line), and three style
updates whose absolute ranges exactly bound the divider (bold), the header
(bold, non-italic, black) and the triggering text (non-italic, black), in
that order.  The final three conjuncts check that dropping each computed
relative offset from the inserted block recovers exactly the divider,
header and triggering-text segments, so the ranges used by the style
requests coincide with the physical positions of the segments. -/
theorem c8_revision_divider (endIndex : Nat) (trig revNum today : List Char)
    (h : 1 < endIndex) :
    append_revision_divider endIndex trig revNum today =
      [DocRequest.updateTextStyle 1 endIndex none (some true) (some (1/2, 1/2, 1/2))
         "italic,foregroundColor",
       DocRequest.insertText endIndex (revisionInsertText trig revNum today),
       DocRequest.updateTextStyle (endIndex + 2) (endIndex + 74) (some true) none none "bold",
       DocRequest.updateTextStyle (endIndex + 76)
         (endIndex + (76 + (headerText revNum today).length))
         (some true) (some false) (some (0, 0, 0)) "bold,italic,foregroundColor",
       DocRequest.updateTextStyle (endIndex + (76 + (headerText revNum today).length + 2))
         (endIndex + (76 + (headerText revNum today).length + 2 + trig.length))
         none (some false) (some (0, 0, 0)) "italic,foregroundColor"] ∧
    revisionInsertText trig revNum today =
      nl2 ++ dividerLine ++ nl2 ++ headerText revNum today ++ nl2 ++ trig ++ nl2 ∧
    dividerLine = List.replicate 72 '=' ∧
    ((revisionInsertText trig revNum today).drop 2).take 72 = dividerLine ∧
    ((revisionInsertText trig revNum today).drop 76).take (headerText revNum today).length
      = headerText revNum today ∧
    ((revisionInsertText trig revNum today).drop
        (76 + (headerText revNum today).length + 2)).take trig.length = trig := by
  refine ⟨?_, rfl, rfl, ?_, ?_, ?_⟩
  · unfold append_revision_divider
    rw [if_pos h]
    simp [dividerLine]
  · have hT : revisionInsertText trig revNum today =
        nl2 ++ (dividerLine ++ (nl2 ++ (headerText revNum today ++ (nl2 ++ (trig ++ nl2))))) := by
      simp [revisionInsertText, List.append_assoc]
    rw [hT, List.drop_left' (show nl2.length = 2 by rfl),
      List.take_left' (show dividerLine.length = 72 by rfl)]
  · have hT : revisionInsertText trig revNum today =
        (nl2 ++ dividerLine ++ nl2) ++ (headerText revNum today ++ (nl2 ++ (trig ++ nl2))) := by
      simp [revisionInsertText, List.append_assoc]
    rw [hT, List.drop_left' (show (nl2 ++ dividerLine ++ nl2).length = 76 by rfl),
      List.take_left' rfl]
  · have hT : revisionInsertText trig revNum today =
        (nl2 ++ dividerLine ++ nl2 ++ headerText revNum today ++ nl2) ++ (trig ++ nl2) := by
      simp [revisionInsertText, List.append_assoc]
    rw [hT, List.drop_left'
        (show (nl2 ++ dividerLine ++ nl2 ++ headerText revNum today ++ nl2).length =
          76 + (headerText revNum today).length + 2 by
            simp [nl2, dividerLine]
            omega),
      List.take_left' rfl]

/-- Witness for C8: appending revision 3 of 10/12/2026 with triggering text
`Hi` to a document whose content ends at index 2. -/
theorem c8_revision_divider_witness :
    append_revision_divider 2 "Hi".toList "3".toList "10/12/2026".toList =
      [DocRequest.updateTextStyle 1 2 none (some true) (some (1/2, 1/2, 1/2))
         "italic,foregroundColor",
       DocRequest.insertText 2 (revisionInsertText "Hi".toList "3".toList "10/12/2026".toList),
       DocRequest.updateTextStyle 4 76 (some true) none none "bold",
       DocRequest.updateTextStyle 78 102
         (some true) (some false) (some (0, 0, 0)) "bold,italic,foregroundColor",
       DocRequest.updateTextStyle 104 106
         none (some false) (some (0, 0, 0)) "italic,foregroundColor"] :=
  (c8_revision_divider 2 "Hi".toList "3".toList "10/12/2026".toList (by decide)).1

/-! ## C6 -/

theorem length_eq_five {α : Type} {d : List α} (h : d.length = 5) :
    ∃ a b c e f, d = [a, b, c, e, f] := by
  rcases d with _ | ⟨a, d⟩
  · simp at h
  rcases d with _ | ⟨b, d⟩
  · simp at h
  rcases d with _ | ⟨c, d⟩
  · simp at h
  rcases d with _ | ⟨e, d⟩
  · simp at h
  rcases d with _ | ⟨f, d⟩
  · simp at h
  rcases d with _ | ⟨g, d⟩
  · exact ⟨a, b, c, e, f, rfl⟩
  · simp at h

theorem headTag?_eq_some {l d : List Char} :
    headTag? l = some d ↔
      ∃ t, l = '#' :: (d ++ '?' :: t) ∧ d.length = 5 ∧ ∀ c ∈ d, c.isDigit = true := by
  constructor
  · intro h
    unfold headTag? at h
    split at h
    · rename_i c0 d1 d2 d3 d4 d5 c6 rest
      split at h
      · rename_i hcond
        obtain ⟨h0, h1, h2, h3, h4, h5, h6⟩ := hcond
        injection h with h'
        subst h'
        subst h0
        subst h6
        exact ⟨rest, rfl, rfl, by
          intro c hc
          simp only [List.mem_cons, List.not_mem_nil, or_false] at hc
          rcases hc with rfl | rfl | rfl | rfl | rfl <;> assumption⟩
      · exact absurd h (by simp)
    · exact absurd h (by simp)
  · rintro ⟨t, hl, hlen, hdig⟩
    obtain ⟨a, b, c, e, f, rfl⟩ := length_eq_five hlen
    subst hl
    have ha := hdig a (by simp)
    have hb := hdig b (by simp)
    have hc := hdig c (by simp)
    have he := hdig e (by simp)
    have hf := hdig f (by simp)
    simp [headTag?, ha, hb, hc, he, hf]

theorem searchTag_isSome_iff (s : List Char) : (searchTag s).isSome = true ↔ HasTag s := by
  induction s with
  | nil =>
    simp only [searchTag, Option.isSome_none, Bool.false_eq_true, false_iff]
    rintro ⟨pre, d, t, hl, hlen, hdig⟩
    cases pre <;> simp at hl
  | cons c rest ih =>
    cases hht : headTag? (c :: rest) with
    | some d =>
      simp only [searchTag, hht, Option.isSome_some, true_iff]
      obtain ⟨t, hl, hlen, hdig⟩ := headTag?_eq_some.1 hht
      exact ⟨[], d, t, by simpa using hl, hlen, hdig⟩
    | none =>
      simp only [searchTag, hht]
      rw [ih]
      constructor
      · rintro ⟨pre, d, t, hl, hlen, hdig⟩
        exact ⟨c :: pre, d, t, by rw [List.cons_append, hl], hlen, hdig⟩
      · rintro ⟨pre, d, t, hl, hlen, hdig⟩
        cases pre with
        | nil =>
          exfalso
          have : headTag? (c :: rest) = some d :=
            headTag?_eq_some.2 ⟨t, by simpa using hl, hlen, hdig⟩
          rw [this] at hht
          exact absurd hht (by simp)
        | cons p pre' =>
          rw [List.cons_append] at hl
          injection hl with h1 h2
          exact ⟨pre', d, t, h2, hlen, hdig⟩

theorem searchTag_leftmost :
    ∀ (s pre d t : List Char), s = pre ++ '#' :: (d ++ '?' :: t) → d.length = 5 →
      (∀ c ∈ d, c.isDigit = true) →
      (∀ pre' d' t', s = pre' ++ '#' :: (d' ++ '?' :: t') → d'.length = 5 →
        (∀ c ∈ d', c.isDigit = true) → pre.length ≤ pre'.length) →
      searchTag s = some d := by
  intro s
  induction s with
  | nil =>
    intro pre d t hl _ _ _
    cases pre <;> simp at hl
  | cons c rest ih =>
    intro pre d t hl hlen hdig hmin
    cases pre with
    | nil =>
      have : headTag? (c :: rest) = some d :=
        headTag?_eq_some.2 ⟨t, by simpa using hl, hlen, hdig⟩
      simp [searchTag, this]
    | cons p pre' =>
      rw [List.cons_append] at hl
      injection hl with h1 h2
      cases hht : headTag? (c :: rest) with
      | some e =>
        exfalso
        obtain ⟨t', hl', hlen', hdig'⟩ := headTag?_eq_some.1 hht
        have hcontra := hmin [] e t' (by simpa using hl') hlen' hdig'
        simp at hcontra
      | none =>
        simp only [searchTag, hht]
        apply ih pre' d t h2 hlen hdig
        intro pre'' d' t' hl' hlen' hdig'
        have h3 := hmin (c :: pre'') d' t'
          (by rw [List.cons_append, hl']) hlen' hdig'
        simp only [List.length_cons] at h3
        omega

/-- C6: a text is job-tagged exactly when it contains a hash followed by
exactly five decimal digits followed immediately by a question mark; the
leftmost such occurrence wins and its five digits are the extracted job
number.  `Please confirm #12345?` yields `12345`, while four digits, six
digits, or a space before the question mark yield no match. -/
theorem c6_job_tag_detection :
    (∀ s : List Char, (searchTag s).isSome = true ↔ HasTag s) ∧
    (∀ s pre d t : List Char, s = pre ++ '#' :: (d ++ '?' :: t) → d.length = 5 →
      (∀ c ∈ d, c.isDigit = true) →
      (∀ pre' d' t', s = pre' ++ '#' :: (d' ++ '?' :: t') → d'.length = 5 →
        (∀ c ∈ d', c.isDigit = true) → pre.length ≤ pre'.length) →
      searchTag s = some d) ∧
    jobTag "Please confirm #12345?" = some "12345" ∧
    jobTag "#1234?" = none ∧
    jobTag "#123456?" = none ∧
    jobTag "#12345 ?" = none :=
  ⟨searchTag_isSome_iff, searchTag_leftmost,
    by decide, by decide, by decide, by decide⟩

/-- Witness for C6: the leftmost-match conjunct applied to the concrete
text `a#11111? #22222?`, whose first valid occurrence starts after one
character. -/
theorem c6_job_tag_detection_witness :
    searchTag "a#11111? #22222?".toList = some ['1', '1', '1', '1', '1'] :=
  c6_job_tag_detection.2.1 "a#11111? #22222?".toList ['a']
    ['1', '1', '1', '1', '1'] (' ' :: "#22222?".toList)
    (by decide) (by decide) (by decide)
    (by
      intro pre' d' t' hl' hlen' hdig'
      rcases pre' with _ | ⟨q, pre''⟩
      · exfalso
        rw [List.nil_append] at hl'
        have : 'a' = '#' := by
          have := congrArg (fun l => l.headI) hl'
          simpa using this
        simp at this
      · simp)

end QuestionLogger
